import Mathlib

/-!
Verification of the TinyThread++ concurrency primitives declared in
`include/tinythread.h` (C++ namespace `tthread`): the atomic cell and atomic
flag with their three backend tiers, the mutex family, the scoped lock guard,
and the `sleep_for` duration conversion.

Each C++ operation is shallowly embedded as a pure Lean function on an explicit
state.  The native platform primitives that the header calls into (Win32
critical sections, POSIX mutexes) are not part of the repository; they are
modelled as small state machines with their documented platform semantics, and
the repository's code on top of them is translated line by line.
-/

namespace tthread

/-- The `memory_order` enumeration of tinythread.h (lines 496-531).  On the
mutex-guarded fallback paths the parameter is accepted but never inspected,
exactly as in the source, where it only appears in the signatures. -/
inductive memory_order where
  | relaxed
  | consume
  | acquire
  | release
  | acq_rel
  | seq_cst
deriving DecidableEq

/-- State of a `tthread::atomic<T>` cell: the single `volatile T mValue` field
(tinythread.h line 795).  On the mutex-guarded fallback path every operation
runs to completion under the internal `mLock`, so each operation acts as one
transformation of the cell. -/
structure Atomic (T : Type) where
  mValue : T
deriving DecidableEq

namespace Atomic

/-- Fallback `store` (tinythread.h lines 685-686): under the guard,
`mValue = desired`. -/
def store {T : Type} (_a : Atomic T) (desired : T) (_order : memory_order) :
    Atomic T :=
  { mValue := desired }

/-- Fallback `load` (tinythread.h lines 698-699): under the guard, return
`mValue`. -/
def load {T : Type} (a : Atomic T) (_order : memory_order) : T :=
  a.mValue

/-- Intrinsic-path `store` (tinythread.h line 683):
`__sync_lock_test_and_set(&mValue, desired)` atomically writes `desired`; the
old value, which the intrinsic returns, is discarded. -/
def store_builtin {T : Type} (_a : Atomic T) (desired : T)
    (_order : memory_order) : Atomic T :=
  { mValue := desired }

/-- Intrinsic-path `load` (tinythread.h line 696):
`__sync_add_and_fetch(&mValue, 0)` adds zero, writes the result back and
returns it. -/
def load_builtin {T : Type} [AddZeroClass T] (a : Atomic T)
    (_order : memory_order) : T × Atomic T :=
  (a.mValue + 0, { mValue := a.mValue + 0 })

/-- Fallback `fetch_add` (tinythread.h lines 714-717): under the guard,
`T result = mValue; mValue += arg; return result`. -/
def fetch_add {T : Type} [Add T] (a : Atomic T) (arg : T)
    (_order : memory_order) : T × Atomic T :=
  (a.mValue, { mValue := a.mValue + arg })

/-- Fallback `fetch_sub` (tinythread.h lines 732-735): under the guard,
`T result = mValue; mValue -= arg; return result`. -/
def fetch_sub {T : Type} [Sub T] (a : Atomic T) (arg : T)
    (_order : memory_order) : T × Atomic T :=
  (a.mValue, { mValue := a.mValue - arg })

/-- Embeds `operator++()` (pre-increment, tinythread.h lines 760-763):
`return fetch_add(1) + 1`, with the defaulted `memory_order_seq_cst`. -/
def inc_pre {T : Type} [Add T] [One T] (a : Atomic T) : T × Atomic T :=
  let r := fetch_add a 1 memory_order.seq_cst
  (r.1 + 1, r.2)

/-- Embeds `operator++(int)` (post-increment, tinythread.h lines 768-771):
`return fetch_add(1)`. -/
def inc_post {T : Type} [Add T] [One T] (a : Atomic T) : T × Atomic T :=
  fetch_add a 1 memory_order.seq_cst

/-- Embeds `operator--()` (pre-decrement, tinythread.h lines 776-779):
`return fetch_sub(1) - 1`. -/
def dec_pre {T : Type} [Sub T] [One T] (a : Atomic T) : T × Atomic T :=
  let r := fetch_sub a 1 memory_order.seq_cst
  (r.1 - 1, r.2)

/-- Embeds `operator--(int)` (post-decrement, tinythread.h lines 784-787):
`return fetch_sub(1)`. -/
def dec_post {T : Type} [Sub T] [One T] (a : Atomic T) : T × Atomic T :=
  fetch_sub a 1 memory_order.seq_cst

end Atomic

/-- Claim C1: on the mutex-guarded fallback path, for a cell holding `v`,
`fetch_add(a, order)` returns `v` and leaves the cell holding `v + a`, and
`fetch_sub(a, order)` returns `v` and leaves the cell holding `v - a`, for any
memory-order argument. -/
theorem fetch_add_fetch_sub_return_old {T : Type} [Add T] [Sub T]
    (v a : T) (order : memory_order) :
    Atomic.fetch_add { mValue := v } a order = (v, { mValue := v + a }) ∧
    Atomic.fetch_sub { mValue := v } a order = (v, { mValue := v - a }) :=
  ⟨rfl, rfl⟩

/-- Claim C2: storing `v` and then loading, with no intervening operation,
returns `v` for any memory-order arguments, on the fallback path and on the
intrinsic path alike. -/
theorem store_load_roundtrip {T : Type} [AddZeroClass T]
    (a b : Atomic T) (v : T) (o1 o2 o3 o4 : memory_order) :
    Atomic.load (Atomic.store a v o1) o2 = v ∧
    (Atomic.load_builtin (Atomic.store_builtin b v o3) o4).1 = v :=
  ⟨rfl, add_zero v⟩

/-- Claim C3: pre-increment returns the value after the increment,
post-increment the value before; symmetrically for decrement; in all four
cases the cell afterwards holds the incremented or decremented value. -/
theorem inc_dec_pre_post {T : Type} [Add T] [Sub T] [One T] (v : T) :
    Atomic.inc_pre { mValue := v } = (v + 1, { mValue := v + 1 }) ∧
    Atomic.inc_post { mValue := v } = (v, { mValue := v + 1 }) ∧
    Atomic.dec_pre { mValue := v } = (v - 1, { mValue := v - 1 }) ∧
    Atomic.dec_post { mValue := v } = (v, { mValue := v - 1 }) :=
  ⟨rfl, rfl, rfl, rfl⟩

/-- State of a `tthread::atomic_flag`: the single `volatile int mFlag` field
(tinythread.h line 648). -/
structure atomic_flag where
  mFlag : Int
deriving DecidableEq

namespace atomic_flag

/-- Embeds `atomic_flag()` (tinythread.h lines 548-550): initializes `mFlag(0)`. -/
def mkDefault : atomic_flag := { mFlag := 0 }

/-- Embeds `atomic_flag(int value)` (tinythread.h lines 552-554): initializes
`mFlag(value)`. -/
def ofInt (value : Int) : atomic_flag := { mFlag := value }

/-- Embeds `test_and_set`, hardware-intrinsic tier (tinythread.h line 562):
`__sync_lock_test_and_set(&mFlag, 1)` writes 1 and returns the previous
`mFlag`, which `static_cast<bool>` maps to `mFlag != 0`. -/
def test_and_set_builtin (f : atomic_flag) (_order : memory_order) :
    Bool × atomic_flag :=
  (decide (f.mFlag ≠ 0), { mFlag := 1 })

/-- Embeds `test_and_set`, inline-assembly exchange tier (x86 `xchg`, tinythread.h
lines 566-573): exchanges the constant 1 with `mFlag`; the old `mFlag` lands
in `result` and is returned as a bool. -/
def test_and_set_asmX86 (f : atomic_flag) (_order : memory_order) :
    Bool × atomic_flag :=
  (decide (f.mFlag ≠ 0), { mFlag := 1 })

/-- Embeds `test_and_set`, mutex-guarded fallback tier (tinythread.h lines 600-603):
under `mLock`, `int result = mFlag; mFlag = 1;` and return `bool(result)`. -/
def test_and_set_fallback (f : atomic_flag) (_order : memory_order) :
    Bool × atomic_flag :=
  (decide (f.mFlag ≠ 0), { mFlag := 1 })

/-- Embeds `test_and_set`, PowerPC load-reserve/store-conditional variant
(tinythread.h lines 583-596): stores 1 only when the old value was 0, and
returns the old value as a bool. -/
def test_and_set_ppc (f : atomic_flag) (_order : memory_order) :
    Bool × atomic_flag :=
  (decide (f.mFlag ≠ 0), if f.mFlag = 0 then { mFlag := 1 } else f)

/-- Embeds `clear`, hardware-intrinsic tier (tinythread.h line 612):
`__sync_lock_release(&mFlag)` writes 0. -/
def clear_builtin (_f : atomic_flag) (_order : memory_order) : atomic_flag :=
  { mFlag := 0 }

/-- Embeds `clear`, inline-assembly exchange tier (x86 `xchg`, tinythread.h lines
615-621): exchanges the constant 0 into `mFlag`. -/
def clear_asmX86 (_f : atomic_flag) (_order : memory_order) : atomic_flag :=
  { mFlag := 0 }

/-- Embeds `clear`, mutex-guarded fallback tier (tinythread.h lines 637-638): under
`mLock`, `mFlag = 0`. -/
def clear_fallback (_f : atomic_flag) (_order : memory_order) : atomic_flag :=
  { mFlag := 0 }

/-- Embeds `clear`, PowerPC variant (tinythread.h lines 630-634): a `sync` barrier
followed by `mFlag = 0`. -/
def clear_ppc (_f : atomic_flag) (_order : memory_order) : atomic_flag :=
  { mFlag := 0 }

end atomic_flag

/-- Claim C4: the hardware-intrinsic, inline-assembly-exchange and
mutex-guarded fallback implementations of `test_and_set` and `clear` are
extensionally equal, hence externally indistinguishable: `test_and_set`
returns whether the flag held a nonzero value immediately before the call and
leaves the flag set, and `clear` leaves the flag cleared. -/
theorem atomic_flag_backends_agree (f : atomic_flag) (order : memory_order) :
    atomic_flag.test_and_set_builtin f order
      = atomic_flag.test_and_set_asmX86 f order ∧
    atomic_flag.test_and_set_asmX86 f order
      = atomic_flag.test_and_set_fallback f order ∧
    (atomic_flag.test_and_set_builtin f order).1 = decide (f.mFlag ≠ 0) ∧
    (atomic_flag.test_and_set_builtin f order).2.mFlag = 1 ∧
    atomic_flag.clear_builtin f order = atomic_flag.clear_asmX86 f order ∧
    atomic_flag.clear_asmX86 f order = atomic_flag.clear_fallback f order ∧
    (atomic_flag.clear_builtin f order).mFlag = 0 :=
  ⟨rfl, rfl, rfl, rfl, rfl, rfl, rfl⟩

/-- The PowerPC assembly variant of `test_and_set` meets the same external
contract: it returns whether the flag was nonzero before the call and leaves
the flag truthy (set), and its `clear` leaves the flag cleared.  (When the old
value was already nonzero it skips the store, so the residual integer may
differ from 1, but the boolean state is identical.) -/
theorem atomic_flag_ppc_contract (f : atomic_flag) (order : memory_order) :
    (atomic_flag.test_and_set_ppc f order).1 = decide (f.mFlag ≠ 0) ∧
    (atomic_flag.test_and_set_ppc f order).2.mFlag ≠ 0 ∧
    (atomic_flag.clear_ppc f order).mFlag = 0 := by
  refine ⟨rfl, ?_, rfl⟩
  by_cases h : f.mFlag = 0
  · simp [atomic_flag.test_and_set_ppc, h]
  · simp [atomic_flag.test_and_set_ppc, h]

/-- Claim C10: a default-constructed flag starts cleared, so its first
`test_and_set` returns `false` and leaves the flag set; a flag constructed
from a nonzero int starts set, so its first `test_and_set` returns `true`. -/
theorem atomic_flag_initial_state (order : memory_order) (v : Int)
    (hv : v ≠ 0) :
    (atomic_flag.test_and_set_builtin atomic_flag.mkDefault order).1
      = false ∧
    (atomic_flag.test_and_set_asmX86 atomic_flag.mkDefault order).1
      = false ∧
    (atomic_flag.test_and_set_fallback atomic_flag.mkDefault order).1
      = false ∧
    (atomic_flag.test_and_set_builtin atomic_flag.mkDefault order).2.mFlag
      = 1 ∧
    (atomic_flag.test_and_set_builtin (atomic_flag.ofInt v) order).1
      = true ∧
    (atomic_flag.test_and_set_fallback (atomic_flag.ofInt v) order).1
      = true :=
  ⟨rfl, rfl, rfl, rfl, decide_eq_true hv, decide_eq_true hv⟩

/-- Witness for `atomic_flag_initial_state` at the concrete nonzero initial
value 1 with sequentially consistent ordering. -/
theorem atomic_flag_initial_state_witness :
    (atomic_flag.test_and_set_builtin atomic_flag.mkDefault
        memory_order.seq_cst).1 = false ∧
    (atomic_flag.test_and_set_asmX86 atomic_flag.mkDefault
        memory_order.seq_cst).1 = false ∧
    (atomic_flag.test_and_set_fallback atomic_flag.mkDefault
        memory_order.seq_cst).1 = false ∧
    (atomic_flag.test_and_set_builtin atomic_flag.mkDefault
        memory_order.seq_cst).2.mFlag = 1 ∧
    (atomic_flag.test_and_set_builtin (atomic_flag.ofInt 1)
        memory_order.seq_cst).1 = true ∧
    (atomic_flag.test_and_set_fallback (atomic_flag.ofInt 1)
        memory_order.seq_cst).1 = true :=
  atomic_flag_initial_state memory_order.seq_cst 1 (by decide)

/-- Model of a Win32 `CRITICAL_SECTION`, the native primitive behind the Win32
mutex backend (environment, not repository code).  A critical section is
recursive by default: the owning thread may re-enter, with an acquisition
count that must return to zero before another thread can enter.  Threads are
named by natural numbers. -/
structure CriticalSection where
  owner : Option Nat
  count : Nat
deriving DecidableEq

/-- Embeds `TryEnterCriticalSection`: succeeds when the section is free or already
owned by the caller (recursive grant); fails without blocking otherwise. -/
def TryEnterCS (t : Nat) (cs : CriticalSection) : Bool × CriticalSection :=
  match cs.owner with
  | none => (true, { owner := some t, count := 1 })
  | some u =>
      if u = t then (true, { owner := some t, count := cs.count + 1 })
      else (false, cs)

/-- Embeds `LeaveCriticalSection`: decrements the acquisition count, freeing the
section when it reaches zero. -/
def LeaveCS (cs : CriticalSection) : CriticalSection :=
  if cs.count ≤ 1 then { owner := none, count := 0 }
  else { owner := cs.owner, count := cs.count - 1 }

/-- State of a `tthread::mutex` on the Win32 backend (tinythread.h lines
249-251): the native `CRITICAL_SECTION mHandle` plus the auxiliary
`bool mAlreadyLocked` that makes the recursive native primitive behave
non-recursively. -/
structure mutexW where
  mHandle : CriticalSection
  mAlreadyLocked : Bool
deriving DecidableEq

namespace mutexW

/-- Win32 `mutex::try_lock` (tinythread.h lines 220-227):
`ret = TryEnterCriticalSection(&mHandle); if (ret && mAlreadyLocked) {
LeaveCriticalSection(&mHandle); ret = false; } return ret;`. -/
def try_lock (t : Nat) (m : mutexW) : Bool × mutexW :=
  let r := TryEnterCS t m.mHandle
  if r.1 && m.mAlreadyLocked then
    (false, { mHandle := LeaveCS r.2, mAlreadyLocked := m.mAlreadyLocked })
  else
    (r.1, { mHandle := r.2, mAlreadyLocked := m.mAlreadyLocked })

end mutexW

/-- Model of a default-type (non-recursive) POSIX mutex, the native primitive
behind the POSIX backend (environment, not repository code):
`pthread_mutex_trylock` returns 0 on success and a busy error (EBUSY = 16)
without blocking when the mutex is already locked by anyone. -/
structure pthreadMutex where
  owner : Option Nat
deriving DecidableEq

/-- Embeds `pthread_mutex_trylock` on a default-type mutex. -/
def pthreadMutexTrylock (t : Nat) (m : pthreadMutex) : Int × pthreadMutex :=
  match m.owner with
  | none => (0, { owner := some t })
  | some _ => (16, m)

namespace mutexP

/-- POSIX `mutex::try_lock` (tinythread.h line 229):
`return (pthread_mutex_trylock(&mHandle) == 0) ? true : false;`. -/
def try_lock (t : Nat) (m : pthreadMutex) : Bool × pthreadMutex :=
  let r := pthreadMutexTrylock t m
  (decide (r.1 = 0), r.2)

end mutexP

/-- Claim C6: on a held non-recursive mutex, `try_lock` by a thread other than
the holder returns `false` and leaves the mutex state unchanged, on both
backends; and on Win32, when the auxiliary `mAlreadyLocked` state is set, even
the holder's `try_lock` — for which the native critical section grants
recursive entry — releases the native acquisition and returns `false`,
leaving the state unchanged.  Because the state is unchanged, repeated calls
keep failing until the holder unlocks. -/
theorem try_lock_on_held_mutex (h t : Nat) (mw : mutexW) (mp : pthreadMutex)
    (hwOwner : mw.mHandle.owner = some h) (hwCount : 1 ≤ mw.mHandle.count)
    (hpOwner : mp.owner = some h) (hne : t ≠ h) :
    mutexW.try_lock t mw = (false, mw) ∧
    (mw.mAlreadyLocked = true → mutexW.try_lock h mw = (false, mw)) ∧
    mutexP.try_lock t mp = (false, mp) := by
  obtain ⟨⟨o, c⟩, al⟩ := mw
  obtain ⟨po⟩ := mp
  dsimp only at hwOwner hwCount hpOwner
  subst hwOwner
  subst hpOwner
  have hht : ¬ (h = t) := fun he => hne he.symm
  refine ⟨?_, ?_, ?_⟩
  · simp [mutexW.try_lock, TryEnterCS, hht]
  · intro hAl
    dsimp only at hAl
    subst hAl
    have hc : ¬ (c + 1 ≤ 1) := by omega
    simp [mutexW.try_lock, TryEnterCS, LeaveCS, hc]
  · simp [mutexP.try_lock, pthreadMutexTrylock]

/-- Witness for `try_lock_on_held_mutex`: thread 1 (and, on the recursive
native path, the holder 0 itself) fails to take a mutex held by thread 0. -/
theorem try_lock_on_held_mutex_witness :
    mutexW.try_lock 1
        { mHandle := { owner := some 0, count := 1 }, mAlreadyLocked := true }
      = (false,
        { mHandle := { owner := some 0, count := 1 },
          mAlreadyLocked := true }) ∧
    (({ mHandle := { owner := some 0, count := 1 },
        mAlreadyLocked := true } : mutexW).mAlreadyLocked = true →
      mutexW.try_lock 0
          { mHandle := { owner := some 0, count := 1 },
            mAlreadyLocked := true }
        = (false,
          { mHandle := { owner := some 0, count := 1 },
            mAlreadyLocked := true })) ∧
    mutexP.try_lock 1 { owner := some 0 } = (false, { owner := some 0 }) :=
  try_lock_on_held_mutex 0 1
    { mHandle := { owner := some 0, count := 1 }, mAlreadyLocked := true }
    { owner := some 0 } rfl (by decide) rfl (by decide)

/-- Program counter of the spin loop inside the Win32 `mutex::lock`
(tinythread.h line 206): `while (mAlreadyLocked) Sleep(1000);`. -/
inductive SpinState where
  | spinning
  | returned
deriving DecidableEq

/-- One iteration of the spin loop of `mutex::lock`, given the current value
of `mAlreadyLocked`: while the flag is set the loop keeps spinning (each
iteration sleeps and re-tests); once it is clear, `lock` proceeds to return. -/
def lockSpinStep (alreadyLocked : Bool) (s : SpinState) : SpinState :=
  match s with
  | SpinState.spinning =>
      if alreadyLocked then SpinState.spinning else SpinState.returned
  | SpinState.returned => SpinState.returned

/-- The blocking `EnterCriticalSection` entry of the Win32 `mutex::lock`
(tinythread.h line 205), as a partial function: `none` means the caller blocks
(section owned by another thread); `some` gives the state after entry. -/
def lockEnter (t : Nat) (m : mutexW) : Option mutexW :=
  match m.mHandle.owner with
  | none => some { mHandle := { owner := some t, count := 1 },
                   mAlreadyLocked := m.mAlreadyLocked }
  | some u =>
      if u = t then
        some { mHandle := { owner := some t, count := m.mHandle.count + 1 },
               mAlreadyLocked := m.mAlreadyLocked }
      else none

/-- Claim C7: if the calling thread already holds the non-recursive mutex
(so `mAlreadyLocked` is set), `lock()` on the Win32 backend passes the native
`EnterCriticalSection` — which grants recursive entry — with the auxiliary
flag still set, and then the spin loop never reaches the returning state: no
number of loop iterations with the flag set exits the loop, so the call never
returns.  (The flag stays set because only `unlock()` clears it, and the only
thread entitled to call `unlock()` is the one spinning.) -/
theorem lock_by_holder_never_returns (t : Nat) (m : mutexW)
    (hOwner : m.mHandle.owner = some t) (hAl : m.mAlreadyLocked = true) :
    (∃ m', lockEnter t m = some m' ∧ m'.mAlreadyLocked = true) ∧
    ∀ n : Nat, (lockSpinStep true)^[n] SpinState.spinning ≠
      SpinState.returned := by
  constructor
  · refine ⟨{ mHandle := { owner := some t, count := m.mHandle.count + 1 },
              mAlreadyLocked := m.mAlreadyLocked }, ?_, hAl⟩
    simp [lockEnter, hOwner]
  · intro n
    have hstay : ∀ k : Nat,
        (lockSpinStep true)^[k] SpinState.spinning = SpinState.spinning := by
      intro k
      induction k with
      | zero => rfl
      | succ k ih => rw [Function.iterate_succ_apply, lockSpinStep]; exact ih
    rw [hstay n]
    exact fun hcon => SpinState.noConfusion hcon

/-- Witness for `lock_by_holder_never_returns`: thread 0 relocking the mutex
it already holds. -/
theorem lock_by_holder_never_returns_witness :
    (∃ m', lockEnter 0
        { mHandle := { owner := some 0, count := 1 }, mAlreadyLocked := true }
      = some m' ∧ m'.mAlreadyLocked = true) ∧
    ∀ n : Nat, (lockSpinStep true)^[n] SpinState.spinning ≠
      SpinState.returned :=
  lock_by_holder_never_returns 0
    { mHandle := { owner := some 0, count := 1 }, mAlreadyLocked := true }
    rfl rfl

/-- Observable lock-interface events issued by a `lock_guard` to its mutex.
Mutexes are identified by a numeric id standing for the referenced object. -/
inductive LockEvent where
  | lockEv (mid : Nat)
  | unlockEv (mid : Nat)
deriving DecidableEq

/-- State of a `tthread::lock_guard`: the single `mutex_type * mMutex` field
(tinythread.h line 378), holding either no mutex or the remembered one. -/
structure lock_guard where
  mMutex : Option Nat
deriving DecidableEq

namespace lock_guard

/-- Embeds `lock_guard()` (tinythread.h line 361): `mMutex(0)` — the null pointer;
no lock call is issued. -/
def mkDefault : lock_guard × List LockEvent := ({ mMutex := none }, [])

/-- Embeds `lock_guard(mutex_type &aMutex)` (tinythread.h lines 364-368):
remembers the mutex and immediately calls `lock()` on it, exactly once. -/
def mkLocking (mid : Nat) : lock_guard × List LockEvent :=
  ({ mMutex := some mid }, [LockEvent.lockEv mid])

/-- Embeds `~lock_guard()` (tinythread.h lines 371-375): `if (mMutex)
mMutex->unlock();` — one unlock on the remembered mutex, none otherwise. -/
def destruct (g : lock_guard) : List LockEvent :=
  match g.mMutex with
  | some mid => [LockEvent.unlockEv mid]
  | none => []

end lock_guard

/-- Claim C8: over its whole lifetime, a `lock_guard` constructed with a mutex
issues exactly one `lock` at construction and exactly one `unlock` on the same
mutex at destruction, while a default-constructed guard issues no lock and no
unlock at all: release happens at most once and never on an empty guard. -/
theorem lock_guard_exactly_once (mid : Nat) :
    (lock_guard.mkLocking mid).2
        ++ lock_guard.destruct (lock_guard.mkLocking mid).1
      = [LockEvent.lockEv mid, LockEvent.unlockEv mid] ∧
    lock_guard.mkDefault.2 ++ lock_guard.destruct lock_guard.mkDefault.1
      = [] :=
  ⟨rfl, rfl⟩

/-- C-style conversion of a real value to `int` (the `int(...)` cast in
`sleep_for`): truncation toward zero.  The `double` arithmetic of the source
is modelled as exact rational arithmetic. -/
def cIntCast (x : ℚ) : Int :=
  if 0 ≤ x then ⌊x⌋ else ⌈x⌉

/-- Embeds `ratio<N, D>::_as_double()` (tinythread.h line 966):
`double(N) / double(D)`, modelled exactly over `ℚ`. -/
def ratioAsDouble (N D : Int) : ℚ :=
  (N : ℚ) / (D : ℚ)

/-- Argument passed to `Sleep` by the Win32 `sleep_for` (tinythread.h line
1031): `int(double(aTime.count()) * (1000.0 * _Period::_as_double()) + 0.5)`
for a duration with count `c` over `ratio<N, D>`. -/
def sleepForWin32Arg (c N D : Int) : Int :=
  cIntCast ((c : ℚ) * (1000 * ratioAsDouble N D) + 1 / 2)

/-- Argument passed to `usleep` by the POSIX `sleep_for` (tinythread.h line
1033): `int(double(aTime.count()) * (1000000.0 * _Period::_as_double()) + 0.5)`. -/
def sleepForPosixArg (c N D : Int) : Int :=
  cIntCast ((c : ℚ) * (1000000 * ratioAsDouble N D) + 1 / 2)

/-- Counterexample to claim C9 as stated: for the duration
`milliseconds(-1)` (count `-1` over `ratio<1, 1000>`), the Win32 backend
computes `int(-1.0 + 0.5) = int(-0.5) = 0`, because the C cast truncates
toward zero, while the nearest integer to `-1 * 1000 * (1/1000) = -1` is `-1`. -/
theorem sleep_for_negative_counterexample :
    sleepForWin32Arg (-1) 1 1000
      ≠ round (((-1 : Int) : ℚ) * 1000 * (((1 : Int) : ℚ) / ((1000 : Int) : ℚ))) := by
  have h1 : sleepForWin32Arg (-1) 1 1000 = 0 := by
    norm_num [sleepForWin32Arg, cIntCast, ratioAsDouble]
  have h2 : round (((-1 : Int) : ℚ) * 1000
      * (((1 : Int) : ℚ) / ((1000 : Int) : ℚ))) = -1 := by
    norm_num [round_eq]
  rw [h1, h2]
  decide

/-- Claim C9 (amended): for every duration whose ratio-scaled value is
nonnegative (in particular every nonnegative count over the positive-period
ratios the header defines), the converted sleep argument is the integer
nearest to the scaled value, rounding halves up — not the truncation toward
zero: Win32 passes `round(c * 1000 * N/D)` milliseconds and POSIX passes
`round(c * 1000000 * N/D)` microseconds. -/
theorem sleep_for_rounds_to_nearest (c N D : Int) (_hD : 0 < D)
    (hnn : 0 ≤ (c : ℚ) * ((N : ℚ) / (D : ℚ))) :
    sleepForWin32Arg c N D
      = round ((c : ℚ) * 1000 * ((N : ℚ) / (D : ℚ))) ∧
    sleepForPosixArg c N D
      = round ((c : ℚ) * 1000000 * ((N : ℚ) / (D : ℚ))) := by
  constructor
  · have harg : (c : ℚ) * (1000 * ratioAsDouble N D)
        = (c : ℚ) * 1000 * ((N : ℚ) / (D : ℚ)) := by
      unfold ratioAsDouble; ring
    have hx : 0 ≤ (c : ℚ) * 1000 * ((N : ℚ) / (D : ℚ)) := by
      have := mul_nonneg (by norm_num : (0 : ℚ) ≤ 1000) hnn
      calc (0 : ℚ) ≤ 1000 * ((c : ℚ) * ((N : ℚ) / (D : ℚ))) := this
        _ = (c : ℚ) * 1000 * ((N : ℚ) / (D : ℚ)) := by ring
    unfold sleepForWin32Arg cIntCast
    rw [harg, if_pos (by linarith), round_eq]
  · have harg : (c : ℚ) * (1000000 * ratioAsDouble N D)
        = (c : ℚ) * 1000000 * ((N : ℚ) / (D : ℚ)) := by
      unfold ratioAsDouble; ring
    have hx : 0 ≤ (c : ℚ) * 1000000 * ((N : ℚ) / (D : ℚ)) := by
      have := mul_nonneg (by norm_num : (0 : ℚ) ≤ 1000000) hnn
      calc (0 : ℚ) ≤ 1000000 * ((c : ℚ) * ((N : ℚ) / (D : ℚ))) := this
        _ = (c : ℚ) * 1000000 * ((N : ℚ) / (D : ℚ)) := by ring
    unfold sleepForPosixArg cIntCast
    rw [harg, if_pos (by linarith), round_eq]

/-- Witness for `sleep_for_rounds_to_nearest`: the 100-millisecond duration of
the spec's own example, `sleep_for(chrono::milliseconds(100))`. -/
theorem sleep_for_rounds_to_nearest_witness :
    sleepForWin32Arg 100 1 1000
      = round (((100 : Int) : ℚ) * 1000 * (((1 : Int) : ℚ) / ((1000 : Int) : ℚ))) ∧
    sleepForPosixArg 100 1 1000
      = round (((100 : Int) : ℚ) * 1000000 * (((1 : Int) : ℚ) / ((1000 : Int) : ℚ))) :=
  sleep_for_rounds_to_nearest 100 1 1000 (by decide) (by norm_num)

/-- Program counter of one thread performing a single increment of a shared
`atomic<int>` through the mutex-guarded fallback body of `fetch_add`
(tinythread.h lines 714-717): acquire `mLock`, read `mValue` into `result`,
write `result + 1` back to `mValue`, release `mLock`. -/
inductive IncPC where
  | start
  | locked
  | readDone
  | wrote
  | done
deriving DecidableEq

/-- How many completed writes a thread at the given program point has
contributed to the shared cell: 1 once its write has landed, 0 before. -/
def IncPC.contrib : IncPC → Int
  | IncPC.wrote => 1
  | IncPC.done => 1
  | _ => 0

/-- Global state of `n` threads concurrently incrementing one shared
`atomic<int>` over the fallback path: the shared `mValue`, the holder of the
atomic's internal `mLock` (if any), and each thread's program counter and
local `result` register. -/
structure IncState (n : Nat) where
  value : Int
  lockOwner : Option (Fin n)
  pc : Fin n → IncPC
  tmp : Fin n → Int

/-- Interleaving small-step semantics: at each step the scheduler picks any
one thread and lets it execute its next instruction.  Acquiring `mLock`
requires the lock to be free; the read and the write are separate steps, so a
lost update would be expressible if mutual exclusion did not prevent it. -/
inductive IncStep (n : Nat) : IncState n → IncState n → Prop where
  | acquire (i : Fin n) (s : IncState n)
      (hpc : s.pc i = IncPC.start) (hfree : s.lockOwner = none) :
      IncStep n s
        { value := s.value, lockOwner := some i,
          pc := Function.update s.pc i IncPC.locked, tmp := s.tmp }
  | readv (i : Fin n) (s : IncState n) (hpc : s.pc i = IncPC.locked) :
      IncStep n s
        { value := s.value, lockOwner := s.lockOwner,
          pc := Function.update s.pc i IncPC.readDone,
          tmp := Function.update s.tmp i s.value }
  | writev (i : Fin n) (s : IncState n) (hpc : s.pc i = IncPC.readDone) :
      IncStep n s
        { value := s.tmp i + 1, lockOwner := s.lockOwner,
          pc := Function.update s.pc i IncPC.wrote, tmp := s.tmp }
  | release (i : Fin n) (s : IncState n) (hpc : s.pc i = IncPC.wrote) :
      IncStep n s
        { value := s.value, lockOwner := none,
          pc := Function.update s.pc i IncPC.done, tmp := s.tmp }

/-- Initial state: the cell holds `v0`, the lock is free, every thread is
about to start its increment. -/
def initIncState (n : Nat) (v0 : Int) : IncState n :=
  { value := v0, lockOwner := none, pc := fun _ => IncPC.start,
    tmp := fun _ => 0 }

/-- Inductive invariant of the concurrent-increment system: a thread between
its lock acquisition and release is the lock owner (so at most one thread is
inside the critical section); the cell holds the initial value plus the
number of writes that have landed; and a thread that has read but not yet
written saw the current cell value. -/
def IncInv (n : Nat) (v0 : Int) (s : IncState n) : Prop :=
  (∀ i, s.pc i = IncPC.locked ∨ s.pc i = IncPC.readDone ∨
      s.pc i = IncPC.wrote → s.lockOwner = some i) ∧
  s.value = v0 + ∑ j, (s.pc j).contrib ∧
  (∀ i, s.pc i = IncPC.readDone → s.tmp i = s.value)

theorem sum_contrib_update {n : Nat} (f : Fin n → IncPC) (i : Fin n)
    (p : IncPC) :
    ∑ j, (Function.update f i p j).contrib
      = (∑ j, (f j).contrib) + (p.contrib - (f i).contrib) := by
  have hpt : ∀ j, (Function.update f i p j).contrib
      = Function.update (fun k => (f k).contrib) i p.contrib j := by
    intro j
    by_cases hj : j = i
    · subst hj; simp
    · simp [Function.update_noteq hj]
  rw [Finset.sum_congr rfl fun j _ => hpt j,
    Finset.sum_update_of_mem (Finset.mem_univ i),
    Finset.sdiff_singleton_eq_erase]
  have h2 := Finset.add_sum_erase Finset.univ (fun k => (f k).contrib)
    (Finset.mem_univ i)
  linarith

theorem IncInv_init (n : Nat) (v0 : Int) : IncInv n v0 (initIncState n v0) := by
  refine ⟨?_, ?_, ?_⟩
  · intro i hi
    rcases hi with h | h | h <;> exact absurd h (by simp [initIncState])
  · simp [initIncState, IncPC.contrib]
  · intro i hi
    exact absurd hi (by simp [initIncState])

theorem IncInv_preserved {n : Nat} {v0 : Int} {s s' : IncState n}
    (hinv : IncInv n v0 s) (hstep : IncStep n s s') : IncInv n v0 s' := by
  obtain ⟨hown, hval, htmp⟩ := hinv
  cases hstep with
  | acquire i s hpc hfree =>
      refine ⟨?_, ?_, ?_⟩
      · intro j hj
        dsimp only at hj ⊢
        by_cases hji : j = i
        · subst hji; rfl
        · rw [Function.update_noteq hji] at hj
          exact absurd (hown j hj)
            (by rw [hfree]; exact fun h => Option.noConfusion h)
      · dsimp only
        rw [sum_contrib_update, hpc]
        simpa [IncPC.contrib] using hval
      · intro j hj
        dsimp only at hj ⊢
        by_cases hji : j = i
        · subst hji
          rw [Function.update_same] at hj
          exact absurd hj (by intro h; exact IncPC.noConfusion h)
        · rw [Function.update_noteq hji] at hj
          exact absurd (hown j (Or.inr (Or.inl hj)))
            (by rw [hfree]; exact fun h => Option.noConfusion h)
  | readv i s hpc =>
      have howni : s.lockOwner = some i := hown i (Or.inl hpc)
      refine ⟨?_, ?_, ?_⟩
      · intro j hj
        dsimp only at hj ⊢
        by_cases hji : j = i
        · subst hji; exact howni
        · rw [Function.update_noteq hji] at hj
          exact hown j hj
      · dsimp only
        rw [sum_contrib_update, hpc]
        simpa [IncPC.contrib] using hval
      · intro j hj
        dsimp only at hj ⊢
        by_cases hji : j = i
        · subst hji; rw [Function.update_same]
        · rw [Function.update_noteq hji] at hj
          have hj' := hown j (Or.inr (Or.inl hj))
          rw [howni] at hj'
          rw [Function.update_noteq hji]
          exact absurd (Option.some.inj hj') (fun h => hji h.symm)
  | writev i s hpc =>
      have howni : s.lockOwner = some i := hown i (Or.inr (Or.inl hpc))
      refine ⟨?_, ?_, ?_⟩
      · intro j hj
        dsimp only at hj ⊢
        by_cases hji : j = i
        · subst hji; exact howni
        · rw [Function.update_noteq hji] at hj
          exact hown j hj
      · dsimp only
        rw [sum_contrib_update, hpc, htmp i hpc, hval]
        simp [IncPC.contrib]
        ring
      · intro j hj
        dsimp only at hj ⊢
        by_cases hji : j = i
        · subst hji
          rw [Function.update_same] at hj
          exact absurd hj (by intro h; exact IncPC.noConfusion h)
        · rw [Function.update_noteq hji] at hj
          have hj' := hown j (Or.inr (Or.inl hj))
          rw [howni] at hj'
          exact absurd (Option.some.inj hj') (fun h => hji h.symm)
  | release i s hpc =>
      have howni : s.lockOwner = some i := hown i (Or.inr (Or.inr hpc))
      refine ⟨?_, ?_, ?_⟩
      · intro j hj
        dsimp only at hj ⊢
        by_cases hji : j = i
        · subst hji
          rw [Function.update_same] at hj
          rcases hj with h | h | h <;> exact IncPC.noConfusion h
        · rw [Function.update_noteq hji] at hj
          have hj' := hown j hj
          rw [howni] at hj'
          exact absurd (Option.some.inj hj') (fun h => hji h.symm)
      · dsimp only
        rw [sum_contrib_update, hpc]
        simpa [IncPC.contrib] using hval
      · intro j hj
        dsimp only at hj ⊢
        by_cases hji : j = i
        · subst hji
          rw [Function.update_same] at hj
          exact IncPC.noConfusion hj
        · rw [Function.update_noteq hji] at hj
          have hj' := hown j (Or.inr (Or.inl hj))
          rw [howni] at hj'
          exact absurd (Option.some.inj hj') (fun h => hji h.symm)

theorem IncInv_reachable {n : Nat} {v0 : Int} {s : IncState n}
    (h : Relation.ReflTransGen (IncStep n) (initIncState n v0) s) :
    IncInv n v0 s := by
  induction h with
  | refl => exact IncInv_init n v0
  | tail _ hstep ih => exact IncInv_preserved ih hstep

/-- Claim C5: for `n` threads each performing one increment of a shared
`atomic<int>` through the mutex-guarded `fetch_add` path, with no other
operations on the cell, every interleaved execution in which all threads have
finished leaves the cell holding the initial value plus `n` — no increment is
lost. -/
theorem no_lost_updates {n : Nat} {v0 : Int} {s : IncState n}
    (hreach : Relation.ReflTransGen (IncStep n) (initIncState n v0) s)
    (hdone : ∀ i, s.pc i = IncPC.done) : s.value = v0 + n := by
  obtain ⟨_, hval, _⟩ := IncInv_reachable hreach
  rw [hval]
  congr 1
  have hsum : ∀ j : Fin n, (s.pc j).contrib = 1 := by
    intro j; rw [hdone j]; rfl
  rw [Finset.sum_congr rfl fun j _ => hsum j]
  simp

/-- Concrete execution for one thread incrementing a cell that starts at 0:
the initial state. -/
def incW0 : IncState 1 := initIncState 1 0

/-- State after thread 0 acquires the lock. -/
def incW1 : IncState 1 :=
  { value := incW0.value, lockOwner := some 0,
    pc := Function.update incW0.pc 0 IncPC.locked, tmp := incW0.tmp }

/-- State after thread 0 reads the cell into its local `result`. -/
def incW2 : IncState 1 :=
  { value := incW1.value, lockOwner := incW1.lockOwner,
    pc := Function.update incW1.pc 0 IncPC.readDone,
    tmp := Function.update incW1.tmp 0 incW1.value }

/-- State after thread 0 writes the incremented value back. -/
def incW3 : IncState 1 :=
  { value := incW2.tmp 0 + 1, lockOwner := incW2.lockOwner,
    pc := Function.update incW2.pc 0 IncPC.wrote, tmp := incW2.tmp }

/-- State after thread 0 releases the lock: the terminal state. -/
def incW4 : IncState 1 :=
  { value := incW3.value, lockOwner := none,
    pc := Function.update incW3.pc 0 IncPC.done, tmp := incW3.tmp }

theorem incW_reach : Relation.ReflTransGen (IncStep 1) incW0 incW4 := by
  have h1 : IncStep 1 incW0 incW1 := IncStep.acquire 0 incW0 rfl rfl
  have h2 : IncStep 1 incW1 incW2 := IncStep.readv 0 incW1 rfl
  have h3 : IncStep 1 incW2 incW3 := IncStep.writev 0 incW2 rfl
  have h4 : IncStep 1 incW3 incW4 := IncStep.release 0 incW3 rfl
  exact Relation.ReflTransGen.head h1 (Relation.ReflTransGen.head h2
    (Relation.ReflTransGen.head h3 (Relation.ReflTransGen.head h4
      Relation.ReflTransGen.refl)))

/-- Witness for `no_lost_updates`: the four-step execution of a single thread
incrementing a cell that starts at 0 ends with the cell holding 0 + 1. -/
theorem no_lost_updates_witness : incW4.value = (0 : Int) + (1 : Nat) :=
  no_lost_updates incW_reach (by decide)

end tthread
